import Mathlib

/-!
# Verification of the go-blueprint pagination and helper layer

Shallow embedding of the algorithmic parts of the `nhalm/go-blueprint`
repository: the keyset-pagination list methods (`ListWithFilters` in its
`:many` and `:paginated` forms), the HTTP handler's limit parsing
(`ListProducts` in `internal/api/handler.go`), the error translation
(`translateError`), the error-message sanitizer (`sanitizeErrorMessage`),
and the JSON metadata helper (`marshalToRawMessage`).

Go machine integers are modelled as `Int` (none of the checked code can
overflow 64-bit ints on its documented inputs), Go `nil`-able values as
`Option`, Go errors as explicit sum types, and the external store as a
function parameter, so that "no store call is issued" becomes "the result
is the same for every store function".
-/

/-! ## Data model: list filter and list result

`models.ListProductsFilter` and `models.ListProductsResult` from
`internal/models`.  One snapshot of the models (`src/unnamed/part_006`)
lacks the `EndingBefore` field; the superset with all four fields is used
here, and code paths that never touch `EndingBefore` simply ignore it. -/

structure ListProductsFilter where
  active : Option Bool
  limit : Int
  startingAfter : Option String
  endingBefore : Option String
deriving Repr, DecidableEq

/-- Result of the `:many` variant of `ListWithFilters`
(`src/unnamed/part_000`, lines 294-299): the converted products, the
`HasMore` flag and the two optional boundary cursors.  A product is kept
abstract as a row of type `α` together with an id projection `idOf`;
the per-row metadata JSON decode of the source maps each row's fields
one-to-one and is modelled as the identity on rows. -/
structure ListProductsResult (α : Type) where
  products : List α
  hasMore : Bool
  nextCursor : Option String
  prevCursor : Option String
deriving Repr, DecidableEq

/-! ## ListWithFilters, `:many` variant (src/unnamed/part_000, lines 252-300)

The store is the generated `ListProducts` query: given the SQL `LIMIT`
argument it returns the matching rows in ascending id order (the
`active`, `starting_after` and `ending_before` filters are fixed inside
the store function and do not change the assembly logic below, so they
are absorbed into `store`). -/

/-- Assembly step of the `:many` `ListWithFilters`: given the rows the
store returned for `LIMIT (limit+1)`, compute `hasMore`, trim the
overfetch row, and derive the boundary cursors.  Mirrors
`src/unnamed/part_000` lines 258-299: `hasMore := len(results) > limit`;
on overflow the slice `results[:limit]` is kept; `nextCursor` is the last
item's id when `hasMore`, `prevCursor` the first item's id when a
`starting_after` cursor was supplied, and both are absent when the page
is empty (the source guards both with `len(products) > 0`). -/
def listProductsManyAssemble (idOf : α → String) (filter : ListProductsFilter)
    (results : List α) : ListProductsResult α :=
  let hasMore : Bool := decide ((results.length : Int) > filter.limit)
  let products := if hasMore then results.take filter.limit.toNat else results
  { products := products
    hasMore := hasMore
    nextCursor := if hasMore then products.getLast?.map idOf else none
    prevCursor :=
      if filter.startingAfter.isSome then products.head?.map idOf else none }

/-- The `:many` `ListWithFilters` (`src/unnamed/part_000`, lines 252-300):
issue the store query with fetch limit `filter.limit + 1` and assemble
the page from the returned rows. -/
def listWithFiltersMany (idOf : α → String) (filter : ListProductsFilter)
    (store : Int → List α) : ListProductsResult α :=
  listProductsManyAssemble idOf filter (store (filter.limit + 1))

example :
    listWithFiltersMany (fun s => s)
      { active := none, limit := 2, startingAfter := none, endingBefore := none }
      (fun _ => ["prod_001", "prod_002", "prod_003"]) =
    { products := ["prod_001", "prod_002"], hasMore := true,
      nextCursor := some "prod_002", prevCursor := none } := by decide

example :
    listWithFiltersMany (fun s => s)
      { active := none, limit := 2, startingAfter := some "prod_004",
        endingBefore := none }
      (fun _ => ["prod_005"]) =
    { products := ["prod_005"], hasMore := false,
      nextCursor := none, prevCursor := some "prod_005" } := by decide

/-! ## Claims C1, C2, C5: overfetch, cursor derivation, forward-page flags -/

/-- C1: every `:many` paginated list call issues the store query with fetch
limit `limit + 1`; if the store returns exactly `limit + 1` rows the page
has `hasMore = true` and exactly the first `limit` rows as items, and if
it returns at most `limit` rows the page has `hasMore = false` with all
returned rows as items, unchanged. -/
theorem listWithFiltersMany_overfetch {α : Type} (idOf : α → String)
    (filter : ListProductsFilter) (store : Int → List α)
    (hlim : 0 ≤ filter.limit) :
    listWithFiltersMany idOf filter store
        = listProductsManyAssemble idOf filter (store (filter.limit + 1)) ∧
    (((store (filter.limit + 1)).length : Int) = filter.limit + 1 →
      (listWithFiltersMany idOf filter store).hasMore = true ∧
      (listWithFiltersMany idOf filter store).products
          = (store (filter.limit + 1)).take filter.limit.toNat) ∧
    (((store (filter.limit + 1)).length : Int) ≤ filter.limit →
      (listWithFiltersMany idOf filter store).hasMore = false ∧
      (listWithFiltersMany idOf filter store).products
          = store (filter.limit + 1)) := by
  refine ⟨rfl, fun h => ?_, fun h => ?_⟩
  · have hgt : (filter.limit : Int) < ((store (filter.limit + 1)).length : Int) := by
      omega
    simp [listWithFiltersMany, listProductsManyAssemble, hgt]
  · have hle : ¬ (filter.limit : Int) < ((store (filter.limit + 1)).length : Int) := by
      omega
    simp [listWithFiltersMany, listProductsManyAssemble, hle]

/-- Closed witness for `listWithFiltersMany_overfetch` at `limit = 2` with a
store returning three rows. -/
theorem listWithFiltersMany_overfetch_witness :
    (listWithFiltersMany (fun s => s)
        { active := none, limit := 2, startingAfter := none, endingBefore := none }
        (fun _ => ["prod_001", "prod_002", "prod_003"])).hasMore = true ∧
    (listWithFiltersMany (fun s => s)
        { active := none, limit := 2, startingAfter := none, endingBefore := none }
        (fun _ => ["prod_001", "prod_002", "prod_003"])).products
      = ["prod_001", "prod_002"] := by
  have h := listWithFiltersMany_overfetch (fun s => s)
    { active := none, limit := 2, startingAfter := none, endingBefore := none }
    (fun _ => ["prod_001", "prod_002", "prod_003"]) (by decide)
  refine ⟨(h.2.1 (by decide)).1, ?_⟩
  rw [(h.2.1 (by decide)).2]
  decide

/-- C2: for every assembled `:many` page, `nextCursor` is the id of the
last item exactly when `hasMore` is true and is absent otherwise, and the
previous-page cursor is the id of the first item exactly when the page's
previous-page condition holds (in the `:many` variant: a `starting_after`
cursor was supplied) and is absent otherwise; and when `products` is
empty, both cursors are absent regardless of the flags. -/
theorem listWithFiltersMany_cursors {α : Type} (idOf : α → String)
    (filter : ListProductsFilter) (store : Int → List α) :
    ((listWithFiltersMany idOf filter store).products = [] →
      (listWithFiltersMany idOf filter store).nextCursor = none ∧
      (listWithFiltersMany idOf filter store).prevCursor = none) ∧
    ((listWithFiltersMany idOf filter store).products ≠ [] →
      ((listWithFiltersMany idOf filter store).hasMore = true →
        (listWithFiltersMany idOf filter store).nextCursor
          = (listWithFiltersMany idOf filter store).products.getLast?.map idOf) ∧
      ((listWithFiltersMany idOf filter store).hasMore = false →
        (listWithFiltersMany idOf filter store).nextCursor = none) ∧
      (filter.startingAfter.isSome = true →
        (listWithFiltersMany idOf filter store).prevCursor
          = (listWithFiltersMany idOf filter store).products.head?.map idOf) ∧
      (filter.startingAfter = none →
        (listWithFiltersMany idOf filter store).prevCursor = none)) := by
  simp only [listWithFiltersMany, listProductsManyAssemble]
  constructor
  · intro hp
    simp only [hp] at *
    constructor
    · by_cases hm : decide ((((store (filter.limit + 1)).length : Int) > filter.limit)) = true <;>
        simp [hm]
    · by_cases hs : filter.startingAfter.isSome <;> simp [hs]
  · intro hp
    refine ⟨fun hm => ?_, fun hm => ?_, fun hs => ?_, fun hs => ?_⟩
    · simp only at hm
      simp [hm]
    · simp only at hm
      simp [hm]
    · simp [hs]
    · simp [hs]

/-- Closed witness for `listWithFiltersMany_cursors`: a full middle page. -/
theorem listWithFiltersMany_cursors_witness :
    (listWithFiltersMany (fun s => s)
        { active := none, limit := 2, startingAfter := some "prod_002",
          endingBefore := none }
        (fun _ => ["prod_003", "prod_004", "prod_005"])).nextCursor
      = some "prod_004" ∧
    (listWithFiltersMany (fun s => s)
        { active := none, limit := 2, startingAfter := some "prod_002",
          endingBefore := none }
        (fun _ => ["prod_003", "prod_004", "prod_005"])).prevCursor
      = some "prod_003" := by
  have h := (listWithFiltersMany_cursors (fun s => s)
    { active := none, limit := 2, startingAfter := some "prod_002",
      endingBefore := none }
    (fun _ => ["prod_003", "prod_004", "prod_005"])).2 (by decide)
  refine ⟨?_, ?_⟩
  · rw [h.1 (by decide)]
    decide
  · rw [h.2.2.1 (by decide)]
    decide

/-- List-level helper: mapping an id projection over an optional head is
defined exactly when the list is nonempty. -/
theorem head_map_isSome {α : Type} (idOf : α → String) (l : List α) :
    (l.head?.map idOf).isSome = !l.isEmpty := by
  cases l <;> rfl

/-- List-level helper: an optional head is defined exactly when the list
is nonempty. -/
theorem head_isSome {α : Type} (l : List α) :
    l.head?.isSome = !l.isEmpty := by
  cases l <;> rfl

/-- C5 counterexample: a forward page (no `ending_before`) requested with a
`starting_after` cursor for which the store returns no rows is assembled
with an absent previous-page cursor, although a cursor was supplied (the
claim asserts the previous-page cursor is present whenever the page is
not the very first page). -/
theorem listWithFiltersMany_prev_counterexample :
    (listWithFiltersMany (fun s => s)
        { active := none, limit := 2, startingAfter := some "prod_099",
          endingBefore := none }
        (fun _ => ([] : List String))).prevCursor = none ∧
    (some "prod_099" : Option String).isSome = true := by
  decide

/-- C5 amended: for every forward `:many` page (no `ending_before`),
`hasMore` equals the overfetch indicator (the store returned exactly
`limit + 1` rows), and the previous-page cursor is present exactly when a
`starting_after` cursor was supplied AND the assembled page is nonempty;
in particular it is absent on the very first page and on empty pages. -/
theorem listWithFiltersMany_forwardFlags {α : Type} (idOf : α → String)
    (filter : ListProductsFilter) (store : Int → List α)
    (hfwd : filter.endingBefore = none)
    (hlen : ((store (filter.limit + 1)).length : Int) ≤ filter.limit + 1) :
    (listWithFiltersMany idOf filter store).hasMore
        = decide (((store (filter.limit + 1)).length : Int) = filter.limit + 1) ∧
    (listWithFiltersMany idOf filter store).prevCursor.isSome
        = (filter.startingAfter.isSome
            && !(listWithFiltersMany idOf filter store).products.isEmpty) := by
  simp only [listWithFiltersMany, listProductsManyAssemble]
  constructor
  · rw [decide_eq_decide]
    omega
  · by_cases hs : filter.startingAfter.isSome <;>
      simp [hs, head_map_isSome, head_isSome]

/-- Closed witness for `listWithFiltersMany_forwardFlags`: a full middle
page with an extra row has `hasMore = true` and a present previous-page
cursor. -/
theorem listWithFiltersMany_forwardFlags_witness :
    (listWithFiltersMany (fun s => s)
        { active := none, limit := 2, startingAfter := some "prod_002",
          endingBefore := none }
        (fun _ => ["prod_003", "prod_004", "prod_005"])).hasMore = true ∧
    (listWithFiltersMany (fun s => s)
        { active := none, limit := 2, startingAfter := some "prod_002",
          endingBefore := none }
        (fun _ => ["prod_003", "prod_004", "prod_005"])).prevCursor.isSome
      = true := by
  have h := listWithFiltersMany_forwardFlags (fun s => s)
    { active := none, limit := 2, startingAfter := some "prod_002",
      endingBefore := none }
    (fun _ => ["prod_003", "prod_004", "prod_005"]) (by decide) (by decide)
  refine ⟨?_, ?_⟩
  · rw [h.1]
    decide
  · rw [h.2]
    decide

/-! ## Claim C4: handler limit parsing (src/templates/internal/api/handler.go)

`ListProducts` (lines 66-84) parses the `limit` query parameter with
`strconv.Atoi` and keeps the parsed value only when `parsed > 0 &&
parsed <= 100`; in every other case (parameter absent, non-numeric,
non-positive, or above 100) the default `10` silently remains.  The
parameter is modelled as `Option Int`: `none` stands for an absent or
non-numeric `limit` query value (the `Atoi` error branch). -/

/-- Embedded from `handler.go` lines 67-72: the effective limit. -/
def handlerLimit (limitParam : Option Int) : Int :=
  match limitParam with
  | none => 10
  | some parsed => if parsed > 0 ∧ parsed ≤ 100 then parsed else 10

/-- Outcome of the `ListProducts` handler before the service call: either
it proceeds to the service with a filter, or it rejects the request.  The
source has no rejection branch ahead of the service call; the `rejected`
constructor exists so that the absence of a rejection is expressible. -/
inductive ListHandlerStep where
  | proceed (filter : ListProductsFilter)
  | rejected (status : Int) (msg : String)
deriving Repr, DecidableEq

/-- Embedded from `handler.go` `ListProducts` lines 66-84: parse the
`limit` and `active` query parameters, build the service filter, and
proceed.  The handler never sets `EndingBefore` (there is no
`ending_before` query parameter) and never rejects a request for its
`limit`. -/
def listProductsHandlerParse (limitParam : Option Int) (activeParam : Option Bool)
    (startingAfterParam : Option String) : ListHandlerStep :=
  .proceed
    { active := activeParam
      limit := handlerLimit limitParam
      startingAfter := startingAfterParam
      endingBefore := none }

/-- C4 counterexample: a request with `limit = -5` is not rejected with a
`ValidationError` (the handler proceeds, with the default limit `10`),
and a request with `limit = 150` is not clamped to the maximum `100`
(the handler proceeds with the default limit `10` instead). -/
theorem listProductsHandler_limit_counterexample :
    listProductsHandlerParse (some (-5)) none none
      = .proceed { active := none, limit := 10, startingAfter := none,
                   endingBefore := none } ∧
    listProductsHandlerParse (some 150) none none
      = .proceed { active := none, limit := 10, startingAfter := none,
                   endingBefore := none } ∧
    listProductsHandlerParse (some 150) none none
      ≠ .proceed { active := none, limit := 100, startingAfter := none,
                   endingBefore := none } := by
  decide

/-- C4 amended: the handler never rejects a list request for its `limit`;
a limit that is absent, non-numeric, non-positive, or above `100` is
silently replaced by the default `10`, and only a supplied limit in
`1..100` is used as given. -/
theorem listProductsHandler_limit_amended (limitParam : Option Int)
    (activeParam : Option Bool) (startingAfterParam : Option String) :
    (∃ f, listProductsHandlerParse limitParam activeParam startingAfterParam
            = .proceed f) ∧
    (∀ v, limitParam = some v → v ≤ 0 ∨ 100 < v →
      listProductsHandlerParse limitParam activeParam startingAfterParam
        = .proceed { active := activeParam, limit := 10,
                     startingAfter := startingAfterParam, endingBefore := none }) ∧
    (∀ v, limitParam = some v → 0 < v → v ≤ 100 →
      listProductsHandlerParse limitParam activeParam startingAfterParam
        = .proceed { active := activeParam, limit := v,
                     startingAfter := startingAfterParam, endingBefore := none }) := by
  refine ⟨⟨_, rfl⟩, fun v hv hout => ?_, fun v hv h1 h2 => ?_⟩
  · subst hv
    have : ¬ (v > 0 ∧ v ≤ 100) := by omega
    simp [listProductsHandlerParse, handlerLimit, this]
  · subst hv
    have : v > 0 ∧ v ≤ 100 := by omega
    simp [listProductsHandlerParse, handlerLimit, this]

/-- Closed witness for `listProductsHandler_limit_amended` at `limit = 0`
and `limit = 42`. -/
theorem listProductsHandler_limit_amended_witness :
    listProductsHandlerParse (some 0) none none
      = .proceed { active := none, limit := 10, startingAfter := none,
                   endingBefore := none } ∧
    listProductsHandlerParse (some 42) none none
      = .proceed { active := none, limit := 42, startingAfter := none,
                   endingBefore := none } :=
  ⟨(listProductsHandler_limit_amended (some 0) none none).2.1 0 rfl (by decide),
   (listProductsHandler_limit_amended (some 42) none none).2.2 42 rfl
     (by decide) (by decide)⟩

/-! ## Claims C3, C6, C7: the generated pagination engine

Modelled from the spec: the bidirectional pagination engine
(`generated/pagination.go`, produced by the external skimatik code
generator) is not under `src/`; only its callers
(`product_repository.go`, `src/unnamed/part_001`) and its documented
contract are.  Sections 4.1 and 4.2 of the spec define the `CursorCodec`
(an exact round-tripping encode/decode over the cursor tuple, with a
`MalformedCursorError` on any string that does not parse to the tuple
shape) and the `PaginationPlanner` (validation, then cursor decode, then
a single store query).  The definitions below follow those words. -/

/-- Modelled from the spec (section 3): a cursor is an ordered tuple of
boundary-row values, `(sortColumnValue, tieBreakerValue)`.  Values are
modelled as character lists so that the transport encoding below is
explicit. -/
structure Cursor where
  sortVal : List Char
  tieVal : List Char
deriving Repr, DecidableEq

/-- Modelled from the spec (section 4.1): transport escaping for one
character of a cursor value — the separator and the escape character are
escaped so that the encoded form is unambiguous. -/
def escChar (c : Char) : List Char :=
  if c = '|' ∨ c = '~' then ['~', c] else [c]

/-- Modelled from the spec (section 4.1): transport encoding of one
cursor field. -/
def encField : List Char → List Char
  | [] => []
  | c :: rest => escChar c ++ encField rest

/-- Modelled from the spec (section 4.1): `encode(cursorValue) -> string`;
the two fields are escaped and joined by the separator. -/
def encodeCursor (c : Cursor) : String :=
  ⟨encField c.sortVal ++ '|' :: encField c.tieVal⟩

/-- Modelled from the spec (section 4.1): unescape the portion after the
separator; fails (`none`) on a dangling escape or on a second unescaped
separator (wrong arity). -/
def unescSecond : List Char → Option (List Char)
  | [] => some []
  | c :: rest =>
    if c = '~' then
      match rest with
      | [] => none
      | d :: rest2 => (unescSecond rest2).map (fun t => d :: t)
    else if c = '|' then none
    else (unescSecond rest).map (fun t => c :: t)

/-- Modelled from the spec (section 4.1): split an encoded cursor at its
single unescaped separator, unescaping both sides; fails (`none`) when
the string does not have the two-field tuple shape. -/
def splitFirst : List Char → Option (List Char × List Char)
  | [] => none
  | c :: rest =>
    if c = '~' then
      match rest with
      | [] => none
      | d :: rest2 => (splitFirst rest2).map (fun p => (d :: p.1, p.2))
    else if c = '|' then
      (unescSecond rest).map (fun t => (([] : List Char), t))
    else
      (splitFirst rest).map (fun p => (c :: p.1, p.2))

/-- Modelled from the spec (section 4.1): `decode(string) -> Cursor`,
failing with a `MalformedCursorError` message when the string cannot be
parsed into the expected tuple shape. -/
def decodeCursor (s : String) : Except String Cursor :=
  match splitFirst s.data with
  | none => .error "malformed cursor"
  | some (a, b) => .ok { sortVal := a, tieVal := b }

example : decodeCursor (encodeCursor { sortVal := ['a', '|'], tieVal := ['~'] })
    = .ok { sortVal := ['a', '|'], tieVal := ['~'] } := by rfl

example : decodeCursor "ab" = .error "malformed cursor" := by rfl

/-- Unescaping inverts field encoding on the second field. -/
theorem unescSecond_encField (ys : List Char) :
    unescSecond (encField ys) = some ys := by
  induction ys with
  | nil => rfl
  | cons y ys ih =>
    by_cases hy : y = '|' ∨ y = '~'
    · rw [encField, escChar, if_pos hy]
      rw [List.cons_append, List.cons_append, List.nil_append,
        unescSecond.eq_def]
      simp [ih]
    · push_neg at hy
      rw [encField, escChar, if_neg (by tauto)]
      rw [List.cons_append, List.nil_append, unescSecond.eq_def]
      simp [hy.1, hy.2, ih]

/-- Splitting inverts the full cursor encoding. -/
theorem splitFirst_encode (xs ys : List Char) :
    splitFirst (encField xs ++ '|' :: encField ys) = some (xs, ys) := by
  induction xs with
  | nil =>
    rw [encField, List.nil_append, splitFirst.eq_def]
    simp [unescSecond_encField ys]
  | cons x xs ih =>
    by_cases hx : x = '|' ∨ x = '~'
    · rw [encField, escChar, if_pos hx]
      simp only [List.cons_append, List.nil_append]
      rw [splitFirst.eq_def]
      simp [ih]
    · push_neg at hx
      rw [encField, escChar, if_neg (by tauto)]
      simp only [List.cons_append, List.nil_append]
      rw [splitFirst.eq_def]
      simp [hx.1, hx.2, ih]

/-- C6: for every valid cursor `c`, `decode(encode(c)) = c` — encoding a
cursor to its opaque transport string and decoding that string yields the
identical cursor value. -/
theorem decodeCursor_encodeCursor (c : Cursor) :
    decodeCursor (encodeCursor c) = .ok c := by
  show (match splitFirst (encField c.sortVal ++ '|' :: encField c.tieVal) with
    | none => Except.error "malformed cursor"
    | some (a, b) => Except.ok { sortVal := a, tieVal := b }) = Except.ok c
  rw [splitFirst_encode c.sortVal c.tieVal]

/-! ## Pagination planner (modelled from the spec, sections 4.2 and 7)

`PaginationParams` is the generated request type documented in
`src/unnamed/part_001` (lines 106-111): Go zero values, so the empty
string stands for an absent cursor.  The planner validates (mutual
cursor exclusion, `limit <= 0`), clamps `limit` to `maxLimit`, decodes
the supplied cursor, and only then issues the single store query; the
store is a function parameter, so independence of the result from the
store function expresses that no store call was issued. -/

/-- Modelled from the spec: the generated `PaginationParams` request type
(`src/unnamed/part_001`, lines 106-111). -/
structure PaginationParams where
  limit : Int
  nextCursor : String
  beforeCursor : String
deriving Repr, DecidableEq

/-- Modelled from the spec: the engine's error taxonomy (section 7):
validation errors, malformed-cursor errors, and passthrough store
errors. -/
inductive PageError where
  | validationFailed (msg : String)
  | malformedCursor (msg : String)
  | storeFailure (msg : String)
deriving Repr, DecidableEq

/-- Modelled from the spec: the query execution plan of section 4.2 —
comparison cursor (absent on the first page), logical direction
(`forward = true` when no `beforeCursor` is set), and the overfetch
limit `fetchLimit = limit + 1`. -/
structure QueryPlan where
  cmpCursor : Option Cursor
  forward : Bool
  fetchLimit : Int
deriving Repr, DecidableEq

/-- Modelled from the spec (section 4.2, steps 1-6): validate the
request, clamp the limit, decode the supplied cursor, and produce the
query plan. -/
def planQuery (maxLimit : Int) (p : PaginationParams) :
    Except PageError QueryPlan :=
  if p.nextCursor ≠ "" ∧ p.beforeCursor ≠ "" then
    .error (.validationFailed "nextCursor and beforeCursor are mutually exclusive")
  else if p.limit ≤ 0 then
    .error (.validationFailed "limit must be positive")
  else
    let limit := if p.limit > maxLimit then maxLimit else p.limit
    let forward := p.beforeCursor = ""
    match (if p.nextCursor ≠ "" then some p.nextCursor
           else if p.beforeCursor ≠ "" then some p.beforeCursor else none) with
    | none => .ok { cmpCursor := none, forward := forward, fetchLimit := limit + 1 }
    | some s =>
      match decodeCursor s with
      | .error e => .error (.malformedCursor e)
      | .ok c =>
        .ok { cmpCursor := some c, forward := forward, fetchLimit := limit + 1 }

/-- Modelled from the spec: the paginated entry point — plan the query,
then issue the single store call with the plan; planner failures are
returned to the caller without consulting the store. -/
def listPaginated {α : Type} (maxLimit : Int) (p : PaginationParams)
    (store : QueryPlan → Except PageError (List α)) :
    Except PageError (List α) :=
  match planQuery maxLimit p with
  | .error e => .error e
  | .ok plan => store plan

/-- C3: every request with both `nextCursor` and `beforeCursor` supplied
fails with a `ValidationError`; the result is the same for every store
function, so no store query is issued. -/
theorem listPaginated_mutualExclusion {α : Type} (maxLimit : Int)
    (p : PaginationParams)
    (store : QueryPlan → Except PageError (List α))
    (h1 : p.nextCursor ≠ "") (h2 : p.beforeCursor ≠ "") :
    listPaginated maxLimit p store
      = .error (.validationFailed
          "nextCursor and beforeCursor are mutually exclusive") := by
  rw [listPaginated, planQuery]
  rw [if_pos ⟨h1, h2⟩]

/-- Closed witness for `listPaginated_mutualExclusion` at a concrete
request and store. -/
theorem listPaginated_mutualExclusion_witness :
    listPaginated 100 { limit := 10, nextCursor := "a|b", beforeCursor := "c|d" }
        (fun _ => .ok ([] : List Nat))
      = .error (.validationFailed
          "nextCursor and beforeCursor are mutually exclusive") :=
  listPaginated_mutualExclusion 100
    { limit := 10, nextCursor := "a|b", beforeCursor := "c|d" }
    (fun _ => .ok ([] : List Nat)) (by decide) (by decide)

/-- C7: every supplied cursor string that does not parse to the expected
tuple shape makes `decode` fail with a `MalformedCursorError`, and the
paginated call returns exactly that error for every store function — the
error is reported to the caller before any store call is issued, and the
garbled cursor is never treated as a first-page request.  Both cursor
positions are covered. -/
theorem listPaginated_malformedCursor {α : Type} (maxLimit lim : Int)
    (s : String) (store : QueryPlan → Except PageError (List α))
    (hs : s ≠ "") (hparse : splitFirst s.data = none) (hlim : 0 < lim) :
    decodeCursor s = .error "malformed cursor" ∧
    listPaginated maxLimit { limit := lim, nextCursor := s, beforeCursor := "" }
        store = .error (.malformedCursor "malformed cursor") ∧
    listPaginated maxLimit { limit := lim, nextCursor := "", beforeCursor := s }
        store = .error (.malformedCursor "malformed cursor") := by
  have hdec : decodeCursor s = .error "malformed cursor" := by
    rw [decodeCursor, hparse]
  refine ⟨hdec, ?_, ?_⟩
  · rw [listPaginated, planQuery]
    rw [if_neg (by simp), if_neg (by exact (by omega : ¬ lim ≤ 0))]
    simp [hs, hdec]
  · rw [listPaginated, planQuery]
    rw [if_neg (by simp), if_neg (by exact (by omega : ¬ lim ≤ 0))]
    simp [hs, hdec]

/-- Closed witness for `listPaginated_malformedCursor` at the garbled
cursor string `"ab"` (no separator, hence wrong tuple arity). -/
theorem listPaginated_malformedCursor_witness :
    decodeCursor "ab" = .error "malformed cursor" ∧
    listPaginated 100 { limit := 10, nextCursor := "ab", beforeCursor := "" }
        (fun _ => .ok ([] : List Nat))
      = .error (.malformedCursor "malformed cursor") ∧
    listPaginated 100 { limit := 10, nextCursor := "", beforeCursor := "ab" }
        (fun _ => .ok ([] : List Nat))
      = .error (.malformedCursor "malformed cursor") :=
  listPaginated_malformedCursor 100 10 "ab" (fun _ => .ok ([] : List Nat))
    (by decide) (by rfl) (by decide)

/-! ## Claim C8: translateError (src/templates/internal/repository/product_repository.go, lines 152-178)

A Go error value reaching `translateError` is modelled by what the
function observes of it: the `*generated.DatabaseError` that `errors.As`
extracts (`none` when the extraction fails and `dbErr` stays nil), and
the category predicates `generated.IsNotFound` etc.  The predicates and
the extraction live in the external skimatik library, not under `src/`,
so they are uninterpreted attributes of the error value here.  `nil`
input is the `none` case of the outer `Option`.  In Go, selecting
`dbErr.Entity`, `dbErr.Detail` or `dbErr.Operation` on a nil `dbErr`
panics; the model returns `nilDeref` there. -/

/-- The fields of `generated.DatabaseError` that `translateError`
reads. -/
structure DatabaseErrorInfo where
  entity : String
  detail : String
  operation : String
deriving Repr, DecidableEq

/-- A non-nil Go error as observed by `translateError`. -/
structure GoError where
  dbErr : Option DatabaseErrorInfo
  isNotFound : Bool
  isAlreadyExists : Bool
  isInvalidReference : Bool
  isValidationError : Bool
  isConnectionError : Bool
  isTimeout : Bool
  isDatabaseError : Bool
deriving Repr, DecidableEq

/-- The `apperrors` application error constructors used by
`translateError` (src/unnamed/part_004). -/
inductive AppError where
  | notFoundErr (resource id : String)
  | conflictErr (resource reason : String)
  | validationErr (field msg : String)
  | serviceUnavailableErr (msg : String)
  | timeoutErr (operation : String)
deriving Repr, DecidableEq

/-- Outcome of `translateError`: a returned (possibly nil) application
error, or a nil-pointer dereference panic. -/
inductive TranslateOutcome where
  | returns (e : Option AppError)
  | nilDeref
deriving Repr, DecidableEq

/-- Embedded from `product_repository.go` lines 152-178: the `switch`
over the category predicates, each dbErr-reading case dereferencing the
extracted `dbErr`. -/
def translateError (err : Option GoError) : TranslateOutcome :=
  match err with
  | none => .returns none
  | some e =>
    if e.isNotFound then
      match e.dbErr with
      | none => .nilDeref
      | some d => .returns (some (.notFoundErr d.entity ""))
    else if e.isAlreadyExists then
      match e.dbErr with
      | none => .nilDeref
      | some d => .returns (some (.conflictErr d.entity "already exists"))
    else if e.isInvalidReference then
      match e.dbErr with
      | none => .nilDeref
      | some d =>
        .returns (some (.conflictErr d.entity "referenced resource does not exist"))
    else if e.isValidationError then
      match e.dbErr with
      | none => .nilDeref
      | some d => .returns (some (.validationErr "" d.detail))
    else if e.isConnectionError then
      .returns (some (.serviceUnavailableErr "database connection error"))
    else if e.isTimeout then
      match e.dbErr with
      | none => .nilDeref
      | some d => .returns (some (.timeoutErr d.operation))
    else if e.isDatabaseError then
      .returns (some (.serviceUnavailableErr "database error"))
    else
      .returns (some (.serviceUnavailableErr "unexpected error"))

/-- C8 counterexample: a non-nil error that matches `IsNotFound` while
`errors.As` extracts no `*generated.DatabaseError` (nil `dbErr`) makes
`translateError` dereference a nil pointer instead of returning an
application error. -/
theorem translateError_nilDeref_counterexample :
    translateError (some
      { dbErr := none, isNotFound := true, isAlreadyExists := false,
        isInvalidReference := false, isValidationError := false,
        isConnectionError := false, isTimeout := false,
        isDatabaseError := false }) = .nilDeref := by
  decide

/-- C8 amended: `translateError` returns nil for nil input, and for every
non-nil error it terminates without a nil dereference and returns a
non-nil application error PROVIDED the extracted `dbErr` is non-nil or
the error matches none of the five dbErr-reading categories (`IsNotFound`,
`IsAlreadyExists`, `IsInvalidReference`, `IsValidationError`,
`IsTimeout`); when one of those five matches with a nil `dbErr`, the
code dereferences a nil pointer. -/
theorem translateError_amended :
    translateError none = .returns none ∧
    (∀ e : GoError,
      e.dbErr.isSome = true ∨
        (e.isNotFound = false ∧ e.isAlreadyExists = false ∧
         e.isInvalidReference = false ∧ e.isValidationError = false ∧
         e.isTimeout = false) →
      ∃ a : AppError, translateError (some e) = .returns (some a)) := by
  refine ⟨rfl, fun e h => ?_⟩
  rcases hdb : e.dbErr with _ | d
  · rcases h with h | ⟨h1, h2, h3, h4, h5⟩
    · rw [hdb] at h
      exact absurd h (by decide)
    · by_cases hc : e.isConnectionError = true
      · exact ⟨.serviceUnavailableErr "database connection error",
          by simp [translateError, h1, h2, h3, h4, h5, hc]⟩
      · by_cases hd2 : e.isDatabaseError = true
        · exact ⟨.serviceUnavailableErr "database error",
            by simp [translateError, h1, h2, h3, h4, h5, hc, hd2]⟩
        · exact ⟨.serviceUnavailableErr "unexpected error",
            by simp [translateError, h1, h2, h3, h4, h5, hc, hd2]⟩
  · by_cases h1 : e.isNotFound = true
    · exact ⟨.notFoundErr d.entity "", by simp [translateError, h1, hdb]⟩
    · by_cases h2 : e.isAlreadyExists = true
      · exact ⟨.conflictErr d.entity "already exists",
          by simp [translateError, h1, h2, hdb]⟩
      · by_cases h3 : e.isInvalidReference = true
        · exact ⟨.conflictErr d.entity "referenced resource does not exist",
            by simp [translateError, h1, h2, h3, hdb]⟩
        · by_cases h4 : e.isValidationError = true
          · exact ⟨.validationErr "" d.detail,
              by simp [translateError, h1, h2, h3, h4, hdb]⟩
          · by_cases h5 : e.isConnectionError = true
            · exact ⟨.serviceUnavailableErr "database connection error",
                by simp [translateError, h1, h2, h3, h4, h5]⟩
            · by_cases h6 : e.isTimeout = true
              · exact ⟨.timeoutErr d.operation,
                  by simp [translateError, h1, h2, h3, h4, h5, h6, hdb]⟩
              · by_cases h7 : e.isDatabaseError = true
                · exact ⟨.serviceUnavailableErr "database error",
                    by simp [translateError, h1, h2, h3, h4, h5, h6, h7]⟩
                · exact ⟨.serviceUnavailableErr "unexpected error",
                    by simp [translateError, h1, h2, h3, h4, h5, h6, h7]⟩

/-- Closed witness for `translateError_amended`: a not-found error
carrying its `DatabaseError` translates to a `NotFoundError`. -/
theorem translateError_amended_witness :
    ∃ a : AppError,
      translateError (some
        { dbErr := some { entity := "products", detail := "", operation := "" },
          isNotFound := true, isAlreadyExists := false,
          isInvalidReference := false, isValidationError := false,
          isConnectionError := false, isTimeout := false,
          isDatabaseError := false }) = .returns (some a) :=
  translateError_amended.2
    { dbErr := some { entity := "products", detail := "", operation := "" },
      isNotFound := true, isAlreadyExists := false,
      isInvalidReference := false, isValidationError := false,
      isConnectionError := false, isTimeout := false,
      isDatabaseError := false } (Or.inl (by decide))

/-! ## Claim C9: sanitizeErrorMessage (src/unnamed/part_003, lines 23-40)

`strings.ToLower` and `strings.Contains` are modelled at the character
level: lowercasing maps `Char.toLower` over the characters, and
containment is the boolean infix check below. -/

/-- Model of Go `strings.ToLower` on the message strings involved. -/
def toLowerStr (s : String) : String := ⟨s.data.map Char.toLower⟩

/-- Boolean prefix test on character lists. -/
def hasPrefixL : List Char → List Char → Bool
  | [], _ => true
  | _ :: _, [] => false
  | a :: as, b :: bs => a == b && hasPrefixL as bs

/-- Boolean infix test on character lists: `sub` occurs contiguously. -/
def hasInfixL (sub : List Char) : List Char → Bool
  | [] => sub.isEmpty
  | c :: rest => hasPrefixL sub (c :: rest) || hasInfixL sub rest

/-- Model of Go `strings.Contains s sub`. -/
def containsSub (s sub : String) : Bool := hasInfixL sub.data s.data

/-- Embedded from `src/unnamed/part_003` lines 23-40: lowercase the
message; if it mentions `sql`, `database` or `postgres`, replace it with
a generic message chosen by status class; otherwise replace it with the
generic internal message when the status is 5xx and pass it through
unchanged below 500. -/
def sanitizeErrorMessage (message : String) (statusCode : Int) : String :=
  let lowerMsg := toLowerStr message
  if containsSub lowerMsg "sql" || containsSub lowerMsg "database" ||
      containsSub lowerMsg "postgres" then
    if statusCode ≥ 500 then "An internal error occurred"
    else "Invalid request"
  else if statusCode ≥ 500 then "An internal error occurred"
  else message

example : sanitizeErrorMessage "pq: duplicate key in Postgres table" 409
    = "Invalid request" := by decide

example : sanitizeErrorMessage "name is required" 400
    = "name is required" := by decide

/-- C9: every error message rendered with a status of at least 500 is
exactly the generic internal message, and a message mentioning `sql`,
`database` or `postgres` (case-insensitively) is never sent verbatim: it
becomes the generic internal message for statuses at least 500 and
`Invalid request` otherwise. -/
theorem sanitizeErrorMessage_policy (message : String) (statusCode : Int) :
    (statusCode ≥ 500 →
      sanitizeErrorMessage message statusCode = "An internal error occurred") ∧
    ((containsSub (toLowerStr message) "sql" ||
      containsSub (toLowerStr message) "database" ||
      containsSub (toLowerStr message) "postgres") = true →
      sanitizeErrorMessage message statusCode
        = (if statusCode ≥ 500 then "An internal error occurred"
           else "Invalid request") ∧
      sanitizeErrorMessage message statusCode ≠ message) := by
  constructor
  · intro hst
    by_cases hk : (containsSub (toLowerStr message) "sql" ||
        containsSub (toLowerStr message) "database" ||
        containsSub (toLowerStr message) "postgres") = true
    · simp [sanitizeErrorMessage, hk, hst]
    · simp [sanitizeErrorMessage, hk, hst]
  · intro hk
    have hval : sanitizeErrorMessage message statusCode
        = (if statusCode ≥ 500 then "An internal error occurred"
           else "Invalid request") := by
      simp [sanitizeErrorMessage, hk]
    refine ⟨hval, ?_⟩
    intro heq
    rw [hval] at heq
    by_cases hst : statusCode ≥ 500
    · rw [if_pos hst] at heq
      rw [← heq] at hk
      exact absurd hk (by decide)
    · rw [if_neg hst] at heq
      rw [← heq] at hk
      exact absurd hk (by decide)

/-- Closed witness for `sanitizeErrorMessage_policy`: a database-mentioning
message is masked at status 503 and rewritten at status 400. -/
theorem sanitizeErrorMessage_policy_witness :
    sanitizeErrorMessage "database connection refused" 503
      = "An internal error occurred" ∧
    sanitizeErrorMessage "database connection refused" 400
      ≠ "database connection refused" :=
  ⟨(sanitizeErrorMessage_policy "database connection refused" 503).1 (by decide),
   ((sanitizeErrorMessage_policy "database connection refused" 400).2
     (by decide)).2⟩

/-! ## Claim C10: marshalToRawMessage (src/templates/internal/repository/helpers.go, lines 8-25)

The Go `any` argument is modelled as: the nil interface value, a
`map[string]string` (an association list), or any other JSON-marshalable
value (a JSON value tree).  `json.Marshal` is modelled by the renderer
below; it cannot fail on these inputs, matching Go where `Marshal` only
fails on non-marshalable values, which the model's input type excludes.
Go maps marshal with sorted keys; key order is immaterial to the claim
and the association list order stands in for it. -/

/-- A JSON-marshalable value. -/
inductive Json where
  | null
  | bool (b : Bool)
  | num (n : Int)
  | str (s : String)
  | arr (elems : List Json)
  | obj (fields : List (String × Json))

/-- JSON string escaping for one character. -/
def escJsonChar (c : Char) : List Char :=
  if c = '"' ∨ c = '\\' then ['\\', c] else [c]

/-- JSON string escaping. -/
def escJsonL : List Char → List Char
  | [] => []
  | c :: rest => escJsonChar c ++ escJsonL rest

mutual

/-- Model of `json.Marshal`: render a JSON value to its encoding. -/
def renderJson : Json → String
  | .null => "null"
  | .bool true => "true"
  | .bool false => "false"
  | .num n => toString n
  | .str s => "\"" ++ (⟨escJsonL s.data⟩ : String) ++ "\""
  | .arr es => "[" ++ renderJsonArr es ++ "]"
  | .obj fs => "\x7b" ++ renderJsonObj fs ++ "\x7d"

/-- Comma-joined rendering of array elements. -/
def renderJsonArr : List Json → String
  | [] => ""
  | [j] => renderJson j
  | j :: j2 :: rest => renderJson j ++ "," ++ renderJsonArr (j2 :: rest)

/-- Comma-joined rendering of object fields. -/
def renderJsonObj : List (String × Json) → String
  | [] => ""
  | [(k, v)] => "\"" ++ (⟨escJsonL k.data⟩ : String) ++ "\":" ++ renderJson v
  | (k, v) :: f2 :: rest =>
    "\"" ++ (⟨escJsonL k.data⟩ : String) ++ "\":" ++ renderJson v ++ ","
      ++ renderJsonObj (f2 :: rest)

end

/-- A Go `any` value as passed to `marshalToRawMessage`. -/
inductive GoAny where
  | null
  | stringMap (entries : List (String × String))
  | otherVal (v : Json)

/-- The JSON value a `map[string]string` marshals to. -/
def stringMapToJson (m : List (String × String)) : Json :=
  .obj (m.map (fun p => (p.1, .str p.2)))

/-- Embedded from `helpers.go` lines 8-25: nil input and empty
`map[string]string` input both yield `(nil, nil)` (stored as SQL NULL);
everything else is JSON-marshaled. -/
def marshalToRawMessage : GoAny → Except String (Option String)
  | .null => .ok none
  | .stringMap m =>
    if m.length = 0 then .ok none
    else .ok (some (renderJson (stringMapToJson m)))
  | .otherVal v => .ok (some (renderJson v))

example : renderJson (stringMapToJson [("tier", "gold")])
    = "\x7b\"tier\":\"gold\"\x7d" := by rfl

/-- C10: `marshalToRawMessage` returns `(nil, nil)` both for nil input and
for an empty `map[string]string` (so empty metadata is stored as SQL
NULL), and for every other JSON-marshalable value — including a nonempty
map — it returns the JSON encoding of the value with no error. -/
theorem marshalToRawMessage_policy :
    marshalToRawMessage .null = .ok none ∧
    marshalToRawMessage (.stringMap []) = .ok none ∧
    (∀ m : List (String × String), m ≠ [] →
      marshalToRawMessage (.stringMap m)
        = .ok (some (renderJson (stringMapToJson m)))) ∧
    (∀ v : Json, marshalToRawMessage (.otherVal v)
        = .ok (some (renderJson v))) := by
  refine ⟨rfl, rfl, fun m hm => ?_, fun v => rfl⟩
  have hne : ¬ m.length = 0 := by simpa using hm
  simp [marshalToRawMessage, hne]

/-- Closed witness for `marshalToRawMessage_policy`: a one-entry metadata
map marshals to its JSON object encoding. -/
theorem marshalToRawMessage_policy_witness :
    marshalToRawMessage (.stringMap [("tier", "gold")])
      = .ok (some (renderJson (stringMapToJson [("tier", "gold")]))) :=
  marshalToRawMessage_policy.2.2.1 [("tier", "gold")] (by decide)
